import Mathlib

/-!
Shallow embedding of `src/dockeraizer.py` (the DockerAizer tool).

The program's text-processing core is embedded over `List Char` so that every
definition is a computable, kernel-reducible Lean function:

* `extract_docker_files`  — lines 91-114 of the source;
* `generate_directory_markdown` — lines 57-88, over an explicit filesystem
  tree whose directory listings may fail (PermissionError / other);
* `read_important_files` — lines 42-54, over an explicit direct-children map;
* `stream_response` — lines 151-180, over an explicit stream outcome and an
  explicit session state.

Python string operations are re-implemented with matching semantics:
`str.strip` / `str.lower` / `str.startswith` / the split on the triple-backquote fence marker /
`str.replace(old, "")` (Python's `replace` removes EVERY non-overlapping
occurrence, left to right). Machine-level details that the claims do not
touch (full Unicode case folding, exotic whitespace) are restricted to ASCII,
which covers every string the source manipulates.
-/

/-! ## Python string primitives -/

/-- The backquote character used by the markdown fence marker. -/
def fenceCh : Char := Char.ofNat 96

/-- Whitespace for Python `str.strip()` (ASCII subset). -/
def isPySpace (c : Char) : Bool :=
  c = ' ' || c = '\t' || c = '\n' || c = '\x0d' || c = '\x0b' || c = '\x0c'

/-- Python `s.strip()`. -/
def pyStrip (s : String) : String :=
  String.mk (((s.data.dropWhile isPySpace).reverse.dropWhile isPySpace).reverse)

/-- Python `s.lower()` (ASCII case folding, as in the source's inputs). -/
def pyLower (s : String) : String :=
  String.mk (s.data.map Char.toLower)

/-- If `pre` is a prefix of `cs`, the remainder after it. -/
def dropPrefixChars : List Char → List Char → Option (List Char)
  | [], cs => some cs
  | _ :: _, [] => none
  | p :: ps, c :: cs => if p = c then dropPrefixChars ps cs else none

/-- Python `s.startswith(pre)`. -/
def pyStartsWith (s pre : String) : Bool :=
  (dropPrefixChars pre.data s.data).isSome

/-- Whether `needle` occurs somewhere in `cs` (used to state sibling-omission). -/
def containsToken : List Char → List Char → Bool
  | needle, [] => decide (needle = [])
  | needle, c :: cs => (dropPrefixChars needle (c :: cs)).isSome || containsToken needle cs

/-- Python splitting of the response on the literal triple-backquote fence
marker (line 97 of the source), non-overlapping, left to right; always at least one piece. The source
splits only on this separator, so the three-character match is written out. -/
def splitFence : List Char → List Char → List (List Char)
  | acc, c1 :: c2 :: c3 :: rest =>
    if c1 = fenceCh ∧ c2 = fenceCh ∧ c3 = fenceCh then
      acc.reverse :: splitFence [] rest
    else
      splitFence (c1 :: acc) (c2 :: c3 :: rest)
  | acc, rest => [acc.reverse ++ rest]

/-- The fence split on strings (source line 97). -/
def pySplitFence (s : String) : List String :=
  (splitFence [] s.data).map String.mk

/-- Python `s.replace(old, "")` for a non-empty `old`: every non-overlapping
occurrence is removed, scanning left to right. The recursion is driven by a
fuel argument that each step strictly consumes a character of, so fuel equal
to the length of the scanned text is always enough; the fuel-0 branch is
unreachable from `pyRemoveAll`. -/
def removeAllAux (old : List Char) : Nat → List Char → List Char
  | _, [] => []
  | 0, cs => cs
  | fuel + 1, c :: cs =>
    match dropPrefixChars old (c :: cs) with
    | some rest => removeAllAux old fuel rest
    | none => c :: removeAllAux old fuel cs

/-- Python `s.replace(old, "")` for the source's non-empty label tokens. -/
def pyRemoveAll (s old : String) : String :=
  String.mk (removeAllAux old.data s.data.length s.data)

/-! ## `extract_docker_files` (source lines 91-114) -/

/-- The body of the source's `for block in blocks` loop (lines 106-112): a
Dockerfile-labelled block overwrites the first accumulator component, a
yaml/docker-compose-labelled block overwrites the second, any other block is
ignored. Label detection is case-insensitive (`strip().lower().startswith`),
label stripping is Python `replace`, hence case-sensitive and applied to every
occurrence in the raw block. -/
def processBlock (acc : String × String) (block : String) : String × String :=
  if pyStartsWith (pyLower (pyStrip block)) "dockerfile" then
    (pyStrip (pyRemoveAll block "dockerfile"), acc.2)
  else if pyStartsWith (pyLower (pyStrip block)) "yaml"
      || pyStartsWith (pyLower (pyStrip block)) "docker-compose" then
    (acc.1, pyStrip (pyRemoveAll (pyRemoveAll block "docker-compose.yml") "yaml"))
  else acc

/-- Source lines 91-114: split the reply on the fence marker, take a leading
non-Dockerfile piece as the summary, drop pieces that are blank after
stripping, and fold the labelled-block assignment over the rest. Returns
`(dockerfile, docker_compose, summary)`. -/
def extract_docker_files (response : String) : String × String × String :=
  let blocks := pySplitFence response
  let sb : String × List String :=
    match blocks with
    | [] => ("", [])
    | b0 :: rest =>
      if !(pyStartsWith (pyLower (pyStrip b0)) "dockerfile") then (pyStrip b0, rest)
      else ("", b0 :: rest)
  let kept := sb.2.filter fun b => !(pyStrip b == "")
  let dc := kept.foldl processBlock ("", "")
  (dc.1, dc.2, sb.1)

/-! ## Filesystem model and `generate_directory_markdown` (source lines 57-88) -/

mutual
/-- A filesystem entry as seen by `Path.iterdir`: a plain file, or a directory
together with what enumerating it yields. -/
inductive FSItem where
  | file (name : String)
  | dir (name : String) (listing : DirListing)

/-- What `path.iterdir()` produces for one directory: its entries, a
`PermissionError`, or some other enumeration failure. -/
inductive DirListing where
  | ok (items : List FSItem)
  | permErr
  | otherErr (msg : String)
end

/-- The entry's `item.name`. -/
def itemName : FSItem → String
  | .file n => n
  | .dir n _ => n

/-- The entry's `item.is_dir()`. -/
def itemIsDir : FSItem → Bool
  | .file _ => false
  | .dir _ _ => true

/-- Lexicographic code-point comparison of character lists: the order Python
uses on strings. -/
def ltChars : List Char → List Char → Bool
  | [], [] => false
  | [], _ :: _ => true
  | _ :: _, [] => false
  | a :: as, b :: bs => if a = b then ltChars as bs else decide (a < b)

/-- The source's sort key comparison, line 64:
`key=lambda x: (not x.is_dir(), x.name.lower())` under ascending tuple order,
so directories (key component `False`) come first, then case-insensitive
name order. -/
def entryLt (a b : FSItem) : Bool :=
  if itemIsDir a = itemIsDir b then
    ltChars (pyLower (itemName a)).data (pyLower (itemName b)).data
  else itemIsDir a

/-- Stable insertion of `a` into a run already sorted by `entryLt`: `a` goes
before the first element not strictly below it, as Python's stable sort
places later-arriving equal keys after earlier ones. -/
def insertEntry (a : FSItem) : List FSItem → List FSItem
  | [] => [a]
  | b :: l => if entryLt b a then b :: insertEntry a l else a :: b :: l

/-- Python `sorted(items, key=...)`: a stable ascending sort by `entryLt`. -/
def sortEntries (l : List FSItem) : List FSItem :=
  l.foldr insertEntry []

/-- Source lines 63-64: drop hidden entries (name starting with the dot
marker), then sort directories-first and case-insensitively by name. This is
exactly the list the rendering loop iterates over at one directory level. -/
def processedItems (items : List FSItem) : List FSItem :=
  sortEntries (items.filter fun it => !(pyStartsWith (itemName it) "."))

mutual
/-- Size of one filesystem entry (strictly bounds its nesting depth). -/
def itemSize : FSItem → Nat
  | .file _ => 1
  | .dir _ l => 1 + listingSize l

/-- Size of a listing (strictly bounds its nesting depth). -/
def listingSize : DirListing → Nat
  | .ok items => 1 + itemsSize items
  | .permErr => 1
  | .otherErr _ => 1

/-- Total size of a list of entries. -/
def itemsSize : List FSItem → Nat
  | [] => 0
  | it :: rest => itemSize it + itemsSize rest
end

/-- Index of the last occurrence of `.` in the name, scanned with a running
index (Python `name.rfind(".")`, absent encoded as `none`). -/
def rfindDotAux : List Char → Nat → Option Nat → Option Nat
  | [], _, best => best
  | c :: cs, i, best => rfindDotAux cs (i + 1) (if c = '.' then some i else best)

/-- `PurePath.suffix` as pathlib computes it: the part of the name from its
last dot, provided that dot is neither the first nor the last character. -/
def pySuffix (name : String) : String :=
  match rfindDotAux name.data 0 none with
  | some i =>
    if 0 < i ∧ i < name.data.length - 1 then String.mk (name.data.drop i) else ""
  | none => ""

/-- Source lines 72-80: the emoji class chosen from the lowercased extension. -/
def fileEmoji (name : String) : String :=
  let extension := pyLower (pySuffix name)
  if extension ∈ [".py", ".java", ".cpp", ".js"] then "📜"
  else if extension ∈ [".jpg", ".png", ".gif", ".bmp"] then "🖼️"
  else if extension ∈ [".pdf", ".doc", ".docx", ".txt"] then "📄"
  else "📋"

/-- Python `"    " * indent_level`. -/
def indentStr : Nat → String
  | 0 => ""
  | n + 1 => indentStr n ++ "    "

/-- The one exception `generate_directory_markdown` can raise. In the source,
both `except` handlers (lines 83-86) interpolate the local `indent`, which is
assigned only inside the `for` loop (line 67); when `path.iterdir()` itself
raises, the loop never ran, `indent` is unbound in that frame, and evaluating
the handler's f-string raises `UnboundLocalError` — so neither marker line is
produced by the failing frame and the exception escapes it. -/
inductive PyErr where
  | unboundLocalIndent
deriving DecidableEq

/-- The text `str(e)` renders for the escaped exception. -/
def pyErrMsg : PyErr → String
  | .unboundLocalIndent =>
    "cannot access local variable indent where it is not associated with a value"

/-- State of the rendering loop: still accumulating, or already returned out
of the `except Exception` handler of this frame. -/
inductive LoopState where
  | going (acc : String)
  | returned (result : String)

/-- Source lines 57-88, one frame of the recursion, fuelled. A failing
`iterdir` raises `UnboundLocalError` out of the frame (see `PyErr`). A frame
whose listing succeeds renders the filtered, sorted entries in order; a child
frame's escaped exception is caught by this frame's `except Exception`
handler, which appends the inline error marker at this frame's (bound)
`indent` and returns — so the remaining (sibling) entries of this frame are
not rendered. Each recursive call passes a structurally smaller `DirListing`,
and the fuel strictly dominates the nesting depth when the wrapper below
starts it at `listingSize`, so the fuel-0 branch is unreachable from
`generate_directory_markdown` (`gdmGo_fuel_irrelevant` below). -/
def gdmGo : Nat → DirListing → Nat → Except PyErr String
  | 0, _, _ => Except.ok ""
  | _ + 1, DirListing.permErr, _ => Except.error PyErr.unboundLocalIndent
  | _ + 1, DirListing.otherErr _, _ => Except.error PyErr.unboundLocalIndent
  | fuel + 1, DirListing.ok items, level =>
    let step : LoopState → FSItem → LoopState := fun st it =>
      match st with
      | LoopState.returned r => LoopState.returned r
      | LoopState.going acc =>
        match it with
        | FSItem.file name =>
          LoopState.going (acc ++ indentStr level ++ fileEmoji name ++ " " ++ name ++ "\n")
        | FSItem.dir name lst =>
          let acc2 := acc ++ indentStr level ++ "📁 **" ++ name ++ "/**\n"
          match gdmGo fuel lst (level + 1) with
          | Except.ok sub => LoopState.going (acc2 ++ sub)
          | Except.error e =>
            LoopState.returned (acc2 ++ indentStr level ++ "❌ *Error: " ++ pyErrMsg e ++ "*\n")
    match (processedItems items).foldl step (LoopState.going "") with
    | LoopState.going acc => Except.ok acc
    | LoopState.returned r => Except.ok r

/-- Source lines 57-88: `generate_directory_markdown` on the listing of the
given root, at the given `indent_level`. The value is the returned markdown,
or the exception the call raises. -/
def generate_directory_markdown (l : DirListing) (level : Nat) : Except PyErr String :=
  gdmGo (listingSize l) l level

/-! ## Filesystem children and `read_important_files` (source lines 7-54) -/

/-- A direct child of the scanned root as `read_important_files` can see it:
a regular file together with what `read_text()` returns (or the message of
the exception it raises), a subdirectory with its own children, or any other
kind of entry (`is_file()` false). -/
inductive FileNode where
  | file (readResult : Except String String)
  | dir (children : List (String × FileNode))
  | other

/-- Resolution of `path / filename` against a directory's children. -/
def lookupChild (filename : String) : List (String × FileNode) → Option FileNode
  | [] => none
  | (n, node) :: rest => if n = filename then some node else lookupChild filename rest

/-- Source lines 17-40: the fixed manifest list, in its exact order. -/
def important_files : List String :=
  ["requirements.txt", "setup.py", "pyproject.toml", "Pipfile",
   "package.json", "package-lock.json",
   "pom.xml", "build.gradle",
   "go.mod",
   "Cargo.toml",
   "Dockerfile", "docker-compose.yml",
   "config.json", "config.yaml", "config.yml",
   ]

/-- The dictionary value `read_important_files` records for one manifest name,
if any: lines 45-52 of the source — present regular file, readable → its
content; present regular file, unreadable → the literal placeholder; anything
else → nothing. -/
def manifestValue (entries : List (String × FileNode)) (filename : String) : Option String :=
  match lookupChild filename entries with
  | some (FileNode.file (Except.ok content)) => some content
  | some (FileNode.file (Except.error e)) => some ("Error reading file: " ++ e)
  | _ => none

/-- Source lines 42-54: iterate the manifest list in order and record the
found files; Python dict insertion order makes the result follow the
manifest order. -/
def read_important_files (entries : List (String × FileNode)) : List (String × String) :=
  important_files.filterMap fun filename =>
    (manifestValue entries filename).map fun content => (filename, content)

/-- Python `Path.is_file()` on a resolved child. -/
def isRegularFile : FileNode → Bool
  | FileNode.file _ => true
  | _ => false

/-- A child with its subdirectory contents discarded: used to state that
`read_important_files` never looks below the direct children. -/
def pruneNode : FileNode → FileNode
  | FileNode.file r => FileNode.file r
  | FileNode.dir _ => FileNode.dir []
  | FileNode.other => FileNode.other

/-! ## `stream_response` (source lines 117-180) -/

/-- One parsed reply as appended to `st.session_state.docker_files`
(source lines 167-174). -/
structure HistoryEntry where
  timestamp : Nat
  dockerfile : String
  docker_compose : String
  summary : String
deriving DecidableEq

/-- The process-wide session state the streaming call touches: each key may be
absent (`"docker_files" not in st.session_state`, `.get("message_count", 0)`). -/
structure SessionState where
  docker_files : Option (List HistoryEntry)
  message_count : Option Nat
deriving DecidableEq

/-- What consuming the provider stream does, seen from `stream_response`:
either the iteration of `completion(...)` ends normally after delivering the
given per-part `delta.content` values (`none` models a `None` content), or it
raises after delivering a prefix of parts — the raise of `completion()` itself
is `failAfter [] msg`. -/
inductive StreamOutcome where
  | ok (parts : List (Option String))
  | failAfter (parts : List (Option String)) (msg : String)

/-- The truthy chunks (`if chunk:` — neither `None` nor empty): exactly the
fragments the loop of lines 157-161 both accumulates and yields. -/
def truthyChunks (parts : List (Option String)) : List String :=
  parts.filterMap fun c =>
    match c with
    | some s => if s = "" then none else some s
    | none => none

/-- The accumulated `full_response` after the loop. -/
def accumulate (parts : List (Option String)) : String :=
  (truthyChunks parts).foldl (· ++ ·) ""

/-- Source lines 151-180 (the `try` block of `stream_response`): the pair of
the fragments yielded to the caller and the session state after the call.
On a normal end of the stream, a non-empty accumulated reply is parsed by
`extract_docker_files` and appended as one history entry, and the counter is
bumped (lines 163-177); an empty accumulated reply skips all of that. An
exception before or during streaming is caught by line 179 and surfaced as a
single terminal error fragment, with the session state untouched. -/
def stream_response (outcome : StreamOutcome) (s : SessionState) :
    List String × SessionState :=
  match outcome with
  | StreamOutcome.failAfter parts msg =>
    (truthyChunks parts ++ ["Error during streaming: " ++ msg], s)
  | StreamOutcome.ok parts =>
    let full_response := accumulate parts
    if full_response = "" then (truthyChunks parts, s)
    else
      let parsed := extract_docker_files full_response
      let files := s.docker_files.getD []
      let count := s.message_count.getD 0
      (truthyChunks parts,
        ⟨some (files ++ [⟨count, parsed.1, parsed.2.1, parsed.2.2⟩]), some (count + 1)⟩)

/-! ## Supporting lemmas -/

/-- Stripping the empty string is the empty string. -/
theorem pyStrip_empty : pyStrip "" = "" := rfl

/-- A block whose stripped, lowered text starts with "dockerfile" does not
strip to the empty string. -/
theorem strip_ne_empty_of_dockerfile {b : String}
    (h : pyStartsWith (pyLower (pyStrip b)) "dockerfile" = true) : ¬(pyStrip b = "") := by
  intro he
  rw [he] at h
  exact absurd h (by decide)

/-- A block whose stripped, lowered text starts with "yaml" or
"docker-compose" does not strip to the empty string. -/
theorem strip_ne_empty_of_compose {b : String}
    (h : (pyStartsWith (pyLower (pyStrip b)) "yaml"
        || pyStartsWith (pyLower (pyStrip b)) "docker-compose") = true) :
    ¬(pyStrip b = "") := by
  intro he
  rw [he] at h
  exact absurd h (by decide)

/-! ## Claim C1 — no-fence inputs -/

/-- Claim C1, counterexample: the input "hello" contains no fence marker
(its fence split is the one-piece list), yet `extract_docker_files` does not
return three empty strings — the whole input becomes the summary. -/
theorem extract_docker_files_no_fence_counterexample :
    pySplitFence "hello" = ["hello"] ∧ extract_docker_files "hello" ≠ ("", "", "") := by
  exact ⟨rfl, by decide⟩

/-- Claim C1 as amended: for every input with no occurrence of the fence
marker (fence split = the input alone) whose stripped, lowercased text does
not start with "dockerfile", `extract_docker_files` raises no error and
returns empty dockerfile and compose texts and the stripped input as the
summary. -/
theorem extract_docker_files_no_fence_amended (s : String)
    (hsplit : pySplitFence s = [s])
    (hsw : pyStartsWith (pyLower (pyStrip s)) "dockerfile" = false) :
    extract_docker_files s = ("", "", pyStrip s) := by
  unfold extract_docker_files
  rw [hsplit]
  simp [hsw]

/-- Witness for the amended C1 at the concrete input "hello". -/
theorem extract_docker_files_no_fence_amended_witness :
    extract_docker_files "hello" = ("", "", pyStrip "hello") :=
  extract_docker_files_no_fence_amended "hello" rfl rfl

/-! ## Claim C3 — label stripping inside classified blocks -/

/-- Claim C3, counterexample: in the single Dockerfile-classified segment
"dockerfile\nRUN echo dockerfile\n", Python `replace` removes BOTH
occurrences of "dockerfile", not only the leading label token: the returned
dockerfile text is "RUN echo", not "RUN echo dockerfile". -/
theorem extract_docker_files_label_removal_counterexample :
    extract_docker_files "```dockerfile\nRUN echo dockerfile\n```" = ("RUN echo", "", "")
    ∧ ("RUN echo" : String) ≠ "RUN echo dockerfile" := by
  exact ⟨rfl, by decide⟩

/-- Claim C3 as amended: for a reply with one fenced segment, if the segment
is classified as the Dockerfile block (stripped, lowercased text starts with
"dockerfile"), the returned dockerfile text is the segment with EVERY
occurrence of "dockerfile" removed (case-sensitively) and then stripped; if
it is classified as the compose block, the returned compose text is the
segment with every occurrence of "docker-compose.yml" removed, then every
occurrence of "yaml" removed, then stripped. -/
theorem extract_docker_files_label_removal_amended :
    (∀ s pre body, pySplitFence s = [pre, body, ""] →
      pyStartsWith (pyLower (pyStrip pre)) "dockerfile" = false →
      pyStartsWith (pyLower (pyStrip body)) "dockerfile" = true →
      extract_docker_files s = (pyStrip (pyRemoveAll body "dockerfile"), "", pyStrip pre))
    ∧ (∀ s pre body, pySplitFence s = [pre, body, ""] →
      pyStartsWith (pyLower (pyStrip pre)) "dockerfile" = false →
      pyStartsWith (pyLower (pyStrip body)) "dockerfile" = false →
      (pyStartsWith (pyLower (pyStrip body)) "yaml"
        || pyStartsWith (pyLower (pyStrip body)) "docker-compose") = true →
      extract_docker_files s =
        ("", pyStrip (pyRemoveAll (pyRemoveAll body "docker-compose.yml") "yaml"), pyStrip pre)) := by
  constructor
  · intro s pre body hsplit hpre hbody
    have hne := strip_ne_empty_of_dockerfile hbody
    unfold extract_docker_files
    rw [hsplit]
    simp [hpre, hbody, hne, processBlock, pyStrip_empty]
  · intro s pre body hsplit hpre hbody hyaml
    have hne := strip_ne_empty_of_compose hyaml
    unfold extract_docker_files
    rw [hsplit]
    simp [hpre, hbody, hyaml, hne, processBlock, pyStrip_empty]

/-- Witness for the amended C3: one concrete Dockerfile-labelled reply and one
concrete yaml-labelled reply, each with one fenced segment. -/
theorem extract_docker_files_label_removal_amended_witness :
    extract_docker_files "intro\n```dockerfile\nFROM a\n```" =
      (pyStrip (pyRemoveAll "dockerfile\nFROM a\n" "dockerfile"), "", pyStrip "intro\n")
    ∧ extract_docker_files "hi\n```yaml\na: 1\n```" =
      ("", pyStrip (pyRemoveAll (pyRemoveAll "yaml\na: 1\n" "docker-compose.yml") "yaml"),
        pyStrip "hi\n") :=
  ⟨extract_docker_files_label_removal_amended.1 _ "intro\n" "dockerfile\nFROM a\n" rfl rfl rfl,
   extract_docker_files_label_removal_amended.2 _ "hi\n" "yaml\na: 1\n" rfl rfl rfl rfl⟩

/-! ## Claim C5 — the spec's worked example -/

/-- Claim C5: the spec's concrete three-part reply splits into exactly the
stated summary, Dockerfile and compose texts. -/
theorem extract_docker_files_spec_example :
    extract_docker_files
        "Summary text.\n```dockerfile\nFROM python\n```\n```yaml\nservices:\n  app:\n```" =
      ("FROM python", "services:\n  app:", "Summary text.") := by
  decide

/-! ## Claim C7 — totality and the empty input -/

/-- Claim C7: `extract_docker_files` is a total function — in this embedding
it is a computable Lean function defined on every string, so it terminates
and raises nothing — and on the empty string it returns three empty
strings. -/
theorem extract_docker_files_total_empty :
    (∀ response : String, ∃ out, extract_docker_files response = out)
    ∧ extract_docker_files "" = ("", "", "") :=
  ⟨fun _ => ⟨_, rfl⟩, rfl⟩

/-! ## Claim C2 — listing-failure handling in the scanner (a code bug) -/

/-- Claim C2 concerns a genuine bug: both `except` handlers of
`generate_directory_markdown` interpolate the loop-local `indent`, which is
unbound whenever `iterdir` itself failed, so the handler raises
`UnboundLocalError` instead of rendering a marker. Concretely: (1) on a root
whose listing raises `PermissionError`, the call raises instead of returning
an "Access Denied" line; (2) when a subdirectory's listing fails, the parent
frame catches the escaped `UnboundLocalError` in its generic handler, renders
a generic error line (never "Access Denied"), and its loop aborts, so the
failing directory's later siblings (here "b") are missing from the output. -/
theorem generate_directory_markdown_listing_failure_bug :
    generate_directory_markdown DirListing.permErr 0 = Except.error PyErr.unboundLocalIndent
    ∧ generate_directory_markdown
        (DirListing.ok [FSItem.dir "a" DirListing.permErr, FSItem.dir "b" (DirListing.ok [])]) 0 =
      Except.ok
        "📁 **a/**\n❌ *Error: cannot access local variable indent where it is not associated with a value*\n"
    ∧ containsToken "**a/**".data
        "📁 **a/**\n❌ *Error: cannot access local variable indent where it is not associated with a value*\n".data = true
    ∧ containsToken "**b/**".data
        "📁 **a/**\n❌ *Error: cannot access local variable indent where it is not associated with a value*\n".data = false
    ∧ containsToken "Access Denied".data
        "📁 **a/**\n❌ *Error: cannot access local variable indent where it is not associated with a value*\n".data = false :=
  ⟨rfl, rfl, rfl, rfl, rfl⟩

/-! ## Ordering lemmas for the scanner's sort -/

/-- `ltChars` is asymmetric. -/
theorem ltChars_asymm : ∀ {xs ys : List Char}, ltChars xs ys = true → ltChars ys xs = false := by
  intro xs
  induction xs with
  | nil =>
    intro ys h
    cases ys with
    | nil => simp [ltChars] at h
    | cons b bs => simp [ltChars]
  | cons a as ih =>
    intro ys h
    cases ys with
    | nil => simp [ltChars] at h
    | cons b bs =>
      by_cases hab : a = b
      · subst hab
        simp [ltChars] at h ⊢
        exact ih h
      · simp [ltChars, hab, Ne.symm hab] at h ⊢
        exact le_of_lt h

/-- Negative transitivity of `ltChars`: the relation "not above" is
transitive, as for any strict linear comparison. -/
theorem ltChars_negtrans :
    ∀ {xs ys zs : List Char}, ltChars ys xs = false → ltChars zs ys = false →
      ltChars zs xs = false := by
  intro xs
  induction xs with
  | nil =>
    intro ys zs h1 h2
    cases zs with
    | nil => rfl
    | cons c cs => rfl
  | cons a as ih =>
    intro ys zs h1 h2
    cases ys with
    | nil => simp [ltChars] at h1
    | cons b bs =>
      cases zs with
      | nil => simp [ltChars] at h2
      | cons c cs =>
        by_cases hba : b = a <;> by_cases hcb : c = b
        · subst hba; subst hcb
          simp [ltChars] at h1 h2 ⊢
          exact ih h1 h2
        · subst hba
          simp [ltChars, hcb] at h2 ⊢
          exact h2
        · subst hcb
          simp [ltChars, hba] at h1 ⊢
          exact h1
        · simp [ltChars, hba] at h1
          simp [ltChars, hcb] at h2
          by_cases hca : c = a
          · subst hca
            exact absurd (le_antisymm h2 h1) hba
          · simp [ltChars, hca]
            exact le_trans h1 h2

/-- `entryLt` is asymmetric. -/
theorem entryLt_asymm {a b : FSItem} (h : entryLt a b = true) : entryLt b a = false := by
  unfold entryLt at h ⊢
  by_cases hd : itemIsDir a = itemIsDir b
  · rw [if_pos hd] at h
    rw [if_pos hd.symm]
    exact ltChars_asymm h
  · rw [if_neg hd] at h
    rw [if_neg (Ne.symm hd)]
    cases hb : itemIsDir b
    · rfl
    · rw [h, hb] at hd
      exact absurd rfl hd

/-- Negative transitivity of `entryLt`. -/
theorem entryLt_negtrans {a b c : FSItem}
    (h1 : entryLt b a = false) (h2 : entryLt c b = false) : entryLt c a = false := by
  unfold entryLt at h1 h2 ⊢
  cases hda : itemIsDir a <;> cases hdb : itemIsDir b <;> cases hdc : itemIsDir c <;>
    simp [hda, hdb, hdc] at h1 h2 ⊢ <;>
    exact ltChars_negtrans h1 h2

/-- Membership through `insertEntry`. -/
theorem mem_insertEntry {x a : FSItem} :
    ∀ {l : List FSItem}, x ∈ insertEntry a l ↔ x = a ∨ x ∈ l := by
  intro l
  induction l with
  | nil => simp [insertEntry]
  | cons b t ih =>
    by_cases h : entryLt b a
    · simp [insertEntry, h, ih]
      tauto
    · simp [insertEntry, h]

/-- Membership through `sortEntries`. -/
theorem mem_sortEntries {x : FSItem} :
    ∀ {l : List FSItem}, x ∈ sortEntries l ↔ x ∈ l := by
  intro l
  induction l with
  | nil => simp [sortEntries]
  | cons a t ih =>
    show x ∈ insertEntry a (sortEntries t) ↔ _
    rw [mem_insertEntry]
    simp [ih]

/-- Inserting preserves sortedness (below in the list never `entryLt`-precedes
above). -/
theorem pairwise_insertEntry {a : FSItem} {l : List FSItem}
    (h : List.Pairwise (fun x y => entryLt y x = false) l) :
    List.Pairwise (fun x y => entryLt y x = false) (insertEntry a l) := by
  induction l with
  | nil => simp [insertEntry]
  | cons b t ih =>
    rw [List.pairwise_cons] at h
    obtain ⟨hb, ht⟩ := h
    by_cases hc : entryLt b a
    · show List.Pairwise _ (if entryLt b a then b :: insertEntry a t else a :: b :: t)
      rw [if_pos hc]
      rw [List.pairwise_cons]
      refine ⟨?_, ih ht⟩
      intro x hx
      rcases mem_insertEntry.mp hx with hxa | hxt
      · subst hxa
        exact entryLt_asymm hc
      · exact hb x hxt
    · show List.Pairwise _ (if entryLt b a then b :: insertEntry a t else a :: b :: t)
      rw [if_neg hc]
      rw [List.pairwise_cons]
      constructor
      · intro x hx
        rcases List.mem_cons.mp hx with hxb | hxt
        · subst hxb
          exact Bool.not_eq_true _ ▸ Bool.of_not_eq_true hc
        · exact entryLt_negtrans (Bool.of_not_eq_true hc) (hb x hxt)
      · exact List.pairwise_cons.mpr ⟨hb, ht⟩

/-- The scanner's sort is sorted: no later entry `entryLt`-precedes an
earlier one. -/
theorem pairwise_sortEntries :
    ∀ (l : List FSItem), List.Pairwise (fun x y => entryLt y x = false) (sortEntries l) := by
  intro l
  induction l with
  | nil => simp [sortEntries]
  | cons a t ih =>
    show List.Pairwise _ (insertEntry a (sortEntries t))
    exact pairwise_insertEntry ih

/-! ## Claim C8 — hidden-entry exclusion and ordering at each level -/

/-- Claim C8: at every directory level, the list the scanner's loop iterates
over (`processedItems`, source lines 63-64) contains no entry whose name
starts with the hidden marker ".", every directory precedes every file, and
within the directory group and within the file group the lowercased names are
ascending (for any earlier entry a and later entry b of the same kind, the
lowercased name of b is not lexicographically below that of a). -/
theorem generate_directory_markdown_ordering (items : List FSItem) :
    ((processedItems items).all fun it => !(pyStartsWith (itemName it) ".")) = true
    ∧ List.Pairwise
        (fun a b => (itemIsDir b = true → itemIsDir a = true)
          ∧ (itemIsDir a = itemIsDir b →
              ltChars (pyLower (itemName b)).data (pyLower (itemName a)).data = false))
        (processedItems items) := by
  constructor
  · rw [List.all_eq_true]
    intro it hit
    have hmem : it ∈ items.filter fun it => !(pyStartsWith (itemName it) ".") :=
      mem_sortEntries.mp hit
    exact (List.mem_filter.mp hmem).2
  · refine (pairwise_sortEntries _).imp ?_
    intro a b hab
    constructor
    · intro hb
      by_cases hd : itemIsDir b = itemIsDir a
      · rw [hb] at hd
        exact hd.symm
      · unfold entryLt at hab
        rw [if_neg hd] at hab
        rw [hb] at hab
        exact absurd hab (by decide)
    · intro hd
      unfold entryLt at hab
      rw [if_pos hd.symm] at hab
      exact hab

/-- Witness for C8 at a concrete listing: a hidden entry, two directories and
an uppercase-named file; the processed list is the two directories in
case-insensitive order followed by the file. -/
theorem generate_directory_markdown_ordering_witness :
    processedItems
        [FSItem.file "b.PY", FSItem.dir "A" (DirListing.ok []),
         FSItem.file ".hidden", FSItem.dir "c" (DirListing.ok [])] =
      [FSItem.dir "A" (DirListing.ok []), FSItem.dir "c" (DirListing.ok []),
       FSItem.file "b.PY"]
    ∧ (((processedItems
        [FSItem.file "b.PY", FSItem.dir "A" (DirListing.ok []),
         FSItem.file ".hidden", FSItem.dir "c" (DirListing.ok [])]).all
          fun it => !(pyStartsWith (itemName it) ".")) = true
      ∧ List.Pairwise
          (fun a b => (itemIsDir b = true → itemIsDir a = true)
            ∧ (itemIsDir a = itemIsDir b →
                ltChars (pyLower (itemName b)).data (pyLower (itemName a)).data = false))
          (processedItems
            [FSItem.file "b.PY", FSItem.dir "A" (DirListing.ok []),
             FSItem.file ".hidden", FSItem.dir "c" (DirListing.ok [])])) :=
  ⟨rfl, generate_directory_markdown_ordering _⟩

/-! ## Claims C9, C10 — the config collector -/

/-- Keys of the collector's result form a subsequence of the manifest list. -/
theorem keys_filterMap_sublist (v : String → Option String) :
    ∀ (l : List String),
      ((l.filterMap fun fn => (v fn).map fun content => (fn, content)).map
        Prod.fst).Sublist l := by
  intro l
  induction l with
  | nil => simp
  | cons a t ih =>
    cases hv : v a with
    | none => simpa [List.filterMap_cons, hv] using ih.cons a
    | some b => simpa [List.filterMap_cons, hv] using ih.cons₂ a

/-- Child lookup commutes with pruning subdirectory contents. -/
theorem lookupChild_map_prune (fn : String) :
    ∀ (entries : List (String × FileNode)),
      lookupChild fn (entries.map fun p => (p.1, pruneNode p.2)) =
        (lookupChild fn entries).map pruneNode := by
  intro entries
  induction entries with
  | nil => rfl
  | cons p rest ih =>
    show lookupChild fn ((p.1, pruneNode p.2) :: _) = _
    by_cases h : p.1 = fn
    · simp [lookupChild, h]
    · simp [lookupChild, h, ih]

/-- The recorded value for one manifest name ignores subdirectory contents. -/
theorem manifestValue_prune (entries : List (String × FileNode)) (fn : String) :
    manifestValue (entries.map fun p => (p.1, pruneNode p.2)) fn =
      manifestValue entries fn := by
  unfold manifestValue
  rw [lookupChild_map_prune]
  cases h : lookupChild fn entries with
  | none => rfl
  | some node => cases node <;> rfl

/-- Claim C9: for every root, the collector records each present readable
manifest file with its full content, each present unreadable one with the
literal error placeholder, omits absent names, keeps the result keyed in the
fixed manifest order (a subsequence of `important_files`, not filesystem
order), and never looks below the direct children (pruning every
subdirectory's contents changes nothing). -/
theorem read_important_files_spec (entries : List (String × FileNode)) :
    (∀ fn content, fn ∈ important_files →
      lookupChild fn entries = some (FileNode.file (Except.ok content)) →
      (fn, content) ∈ read_important_files entries)
    ∧ (∀ fn e, fn ∈ important_files →
      lookupChild fn entries = some (FileNode.file (Except.error e)) →
      (fn, "Error reading file: " ++ e) ∈ read_important_files entries)
    ∧ (∀ fn content, lookupChild fn entries = none →
      (fn, content) ∉ read_important_files entries)
    ∧ ((read_important_files entries).map Prod.fst).Sublist important_files
    ∧ read_important_files (entries.map fun p => (p.1, pruneNode p.2)) =
        read_important_files entries := by
  refine ⟨?_, ?_, ?_, ?_, ?_⟩
  · intro fn content hfn hlook
    exact List.mem_filterMap.mpr ⟨fn, hfn, by simp [manifestValue, hlook]⟩
  · intro fn e hfn hlook
    exact List.mem_filterMap.mpr ⟨fn, hfn, by simp [manifestValue, hlook]⟩
  · intro fn content hlook hmem
    obtain ⟨y, hy, heq⟩ := List.mem_filterMap.mp hmem
    cases hv : manifestValue entries y with
    | none => rw [hv] at heq; simp at heq
    | some w =>
      rw [hv] at heq
      simp at heq
      obtain ⟨hyfn, hwc⟩ := heq
      rw [hyfn] at hv
      rw [show manifestValue entries fn = none from by simp [manifestValue, hlook]] at hv
      exact Option.noConfusion hv
  · exact keys_filterMap_sublist _ important_files
  · unfold read_important_files
    have hfun : (fun fn => (manifestValue (entries.map fun p => (p.1, pruneNode p.2)) fn).map
          fun content => (fn, content)) =
        fun fn => (manifestValue entries fn).map fun content => (fn, content) := by
      funext fn
      rw [manifestValue_prune]
    rw [hfun]

/-- Witness for C9: a concrete root with a readable manifest file, an
unreadable one, a non-manifest file and a manifest name that is absent. -/
theorem read_important_files_spec_witness :
    ("package.json", "pkg") ∈ read_important_files
        [("weird.txt", FileNode.file (Except.ok "x")),
         ("Cargo.toml", FileNode.file (Except.error "boom")),
         ("package.json", FileNode.file (Except.ok "pkg"))]
    ∧ ("Cargo.toml", "Error reading file: boom") ∈ read_important_files
        [("weird.txt", FileNode.file (Except.ok "x")),
         ("Cargo.toml", FileNode.file (Except.error "boom")),
         ("package.json", FileNode.file (Except.ok "pkg"))]
    ∧ ("go.mod", "zzz") ∉ read_important_files
        [("weird.txt", FileNode.file (Except.ok "x")),
         ("Cargo.toml", FileNode.file (Except.error "boom")),
         ("package.json", FileNode.file (Except.ok "pkg"))] :=
  ⟨(read_important_files_spec _).1 _ _ (by decide) rfl,
   (read_important_files_spec _).2.1 _ _ (by decide) rfl,
   (read_important_files_spec _).2.2.1 _ _ rfl⟩

/-- Claim C10: a direct child bearing a manifest name that is not a regular
file (a directory, or anything else with `is_file()` false) is omitted from
the collector's result exactly as if absent. -/
theorem read_important_files_nonfile_omitted
    (entries : List (String × FileNode)) (fn : String) (node : FileNode) (content : String)
    (hlook : lookupChild fn entries = some node) (hnode : isRegularFile node = false) :
    (fn, content) ∉ read_important_files entries := by
  intro hmem
  obtain ⟨y, hy, heq⟩ := List.mem_filterMap.mp hmem
  cases hv : manifestValue entries y with
  | none => rw [hv] at heq; simp at heq
  | some w =>
    rw [hv] at heq
    simp at heq
    obtain ⟨hyfn, hwc⟩ := heq
    rw [hyfn] at hv
    cases node with
    | file r => simp [isRegularFile] at hnode
    | dir children => rw [show manifestValue entries fn = none from by
        simp [manifestValue, hlook]] at hv; exact Option.noConfusion hv
    | other => rw [show manifestValue entries fn = none from by
        simp [manifestValue, hlook]] at hv; exact Option.noConfusion hv

/-- Witness for C10: a directory named "Dockerfile" (even one containing a
same-named regular file) yields no entry. -/
theorem read_important_files_nonfile_omitted_witness :
    lookupChild "Dockerfile"
        [("Dockerfile", FileNode.dir [("Dockerfile", FileNode.file (Except.ok "inner"))])] =
      some (FileNode.dir [("Dockerfile", FileNode.file (Except.ok "inner"))])
    ∧ isRegularFile (FileNode.dir [("Dockerfile", FileNode.file (Except.ok "inner"))]) = false
    ∧ ("Dockerfile", "inner") ∉ read_important_files
        [("Dockerfile", FileNode.dir [("Dockerfile", FileNode.file (Except.ok "inner"))])] :=
  ⟨rfl, rfl, read_important_files_nonfile_omitted _ _ _ _ rfl rfl⟩

/-! ## Fuel adequacy for the scanner's recursion -/

/-- Every listing has positive size. -/
theorem listingSize_pos : ∀ (l : DirListing), 1 ≤ listingSize l := by
  intro l
  cases l <;> simp [listingSize]

/-- A member's size is bounded by the list's total size. -/
theorem itemSize_le_of_mem {it : FSItem} :
    ∀ {items : List FSItem}, it ∈ items → itemSize it ≤ itemsSize items := by
  intro items
  induction items with
  | nil => intro h; cases h
  | cons a t ih =>
    intro h
    rcases List.mem_cons.mp h with h | h
    · subst h
      exact Nat.le_add_right _ _
    · exact le_trans (ih h) (Nat.le_add_left _ _)

/-- Fold two pointwise-equal step functions over the same list. -/
theorem foldl_congr_mem {α β : Type} :
    ∀ (L : List α) (f g : β → α → β) (s : β),
      (∀ it ∈ L, ∀ st, f st it = g st it) → L.foldl f s = L.foldl g s := by
  intro L
  induction L with
  | nil => intro f g s h; rfl
  | cons a t ih =>
    intro f g s h
    simp only [List.foldl_cons]
    rw [h a (List.mem_cons_self a t) s]
    exact ih f g (g s a) fun it hit st => h it (List.mem_cons_of_mem a hit) st

/-- Any two fuels at least the listing's size drive `gdmGo` to the same
value: the fuel pattern in the embedding is semantically inert, it only makes
the recursion through the sorted child list structural. -/
theorem gdmGo_eq_of_le :
    ∀ (n : Nat) (l : DirListing) (level f1 f2 : Nat),
      listingSize l ≤ n → listingSize l ≤ f1 → listingSize l ≤ f2 →
      gdmGo f1 l level = gdmGo f2 l level := by
  intro n
  induction n with
  | zero =>
    intro l level f1 f2 hn _ _
    exact absurd (le_trans (listingSize_pos l) hn) (by decide)
  | succ n ih =>
    intro l level f1 f2 hn h1 h2
    cases f1 with
    | zero => exact absurd (le_trans (listingSize_pos l) h1) (by decide)
    | succ g1 =>
      cases f2 with
      | zero => exact absurd (le_trans (listingSize_pos l) h2) (by decide)
      | succ g2 =>
        cases l with
        | permErr => rfl
        | otherErr m => rfl
        | ok items =>
          have hsz : itemsSize items ≤ n ∧ itemsSize items ≤ g1 ∧ itemsSize items ≤ g2 := by
            simp [listingSize] at hn h1 h2
            omega
          simp only [gdmGo]
          congr 1
          apply foldl_congr_mem
          intro it hit st
          cases st with
          | returned r => rfl
          | going acc =>
            cases it with
            | file name => rfl
            | dir name lst =>
              have hin : FSItem.dir name lst ∈ items :=
                (List.mem_filter.mp (mem_sortEntries.mp hit)).1
              have hb : 1 + listingSize lst ≤ itemsSize items := by
                have := itemSize_le_of_mem hin
                simpa [itemSize] using this
              have hrec : gdmGo g1 lst (level + 1) = gdmGo g2 lst (level + 1) :=
                ih lst (level + 1) g1 g2 (by omega) (by omega) (by omega)
              simp only [hrec]

/-- With fuel at least the listing's size, `gdmGo` computes exactly
`generate_directory_markdown`: the fuel-0 branch is unreachable. -/
theorem gdmGo_fuel_irrelevant (f : Nat) (l : DirListing) (level : Nat)
    (h : listingSize l ≤ f) :
    gdmGo f l level = generate_directory_markdown l level :=
  gdmGo_eq_of_le f l level f (listingSize l) h h (le_refl _)

/-- Closed instance of the fuel-adequacy theorem at a concrete tree. -/
theorem gdmGo_fuel_irrelevant_witness :
    gdmGo 1000 (DirListing.ok [FSItem.dir "a" DirListing.permErr]) 0 =
      generate_directory_markdown (DirListing.ok [FSItem.dir "a" DirListing.permErr]) 0 :=
  gdmGo_fuel_irrelevant 1000 _ 0 (by decide)

/-! ## Claims C4, C6 — the streaming call and the session history -/

/-- Claim C4, counterexample: a stream that ends normally with an empty
accumulated reply (here: no truthy fragment at all) appends NOTHING to the
session history — the state is returned untouched, its history still empty —
because line 163 guards the whole parse-and-append on `if full_response:`.
The claim asserts exactly one entry is appended even in this case. -/
theorem stream_response_empty_reply_counterexample :
    stream_response (StreamOutcome.ok []) ⟨some [], some 0⟩ = ([], ⟨some [], some 0⟩)
    ∧ ((stream_response (StreamOutcome.ok []) ⟨some [], some 0⟩).2.docker_files.getD []).length
        = 0 := by
  exact ⟨rfl, rfl⟩

/-- Claim C4 as amended: when the provider stream ends normally and the
accumulated reply is non-empty, exactly one history entry — the parse of the
accumulated reply, stamped with the current counter — is appended and the
counter is bumped; when the accumulated reply is empty, the session state is
left untouched (no entry is appended). -/
theorem stream_response_history_append_amended
    (parts : List (Option String)) (s : SessionState) :
    (accumulate parts ≠ "" →
      stream_response (StreamOutcome.ok parts) s =
        (truthyChunks parts,
          ⟨some (s.docker_files.getD [] ++
              [⟨s.message_count.getD 0,
                (extract_docker_files (accumulate parts)).1,
                (extract_docker_files (accumulate parts)).2.1,
                (extract_docker_files (accumulate parts)).2.2⟩]),
            some (s.message_count.getD 0 + 1)⟩))
    ∧ (accumulate parts = "" →
      stream_response (StreamOutcome.ok parts) s = (truthyChunks parts, s)) := by
  constructor
  · intro h
    simp [stream_response, h]
  · intro h
    simp [stream_response, h]

/-- Witness for the amended C4: one truthy fragment "x" (so the accumulated
reply is "x", parsed to an all-summary entry), and one all-`None` stream (so
the accumulated reply is empty and the state is untouched). -/
theorem stream_response_history_append_amended_witness :
    (accumulate [some "x"] ≠ ""
      ∧ stream_response (StreamOutcome.ok [some "x"]) ⟨none, none⟩ =
          (["x"], ⟨some [⟨0, "", "", "x"⟩], some 1⟩))
    ∧ (accumulate [none] = ""
      ∧ stream_response (StreamOutcome.ok [none]) ⟨some [], some 5⟩ = ([], ⟨some [], some 5⟩)) :=
  ⟨⟨by decide,
    (stream_response_history_append_amended [some "x"] ⟨none, none⟩).1 (by decide)⟩,
   ⟨rfl, (stream_response_history_append_amended [none] ⟨some [], some 5⟩).2 rfl⟩⟩

/-- Claim C6: when the completion call or the stream iteration raises after
any number of fragments, the caller receives the already-yielded truthy
fragments plus exactly one terminal error fragment, and the session state —
in particular the history — is exactly the state before the call: the partial
accumulated text is neither parsed nor recorded. -/
theorem stream_response_failure_no_history
    (parts : List (Option String)) (msg : String) (s : SessionState) :
    (stream_response (StreamOutcome.failAfter parts msg) s).1 =
      truthyChunks parts ++ ["Error during streaming: " ++ msg]
    ∧ (stream_response (StreamOutcome.failAfter parts msg) s).2 = s :=
  ⟨rfl, rfl⟩
